import Mathlib

/-!
Verification development for the docstocode-types library: a shared data
contract for project-management entities (features, bugs, tasks), a runtime
validator checking untyped input against a simplified JSON-Schema subset,
and per-kind status-transition tables.

Modelling conventions (shallow embedding of the TypeScript source):

* Untyped runtime values (the `unknown` inputs of the validators) are
  modelled by the inductive `JSValue`.  Numbers are modelled by `Rat`
  (exact for every comparison the code performs; IEEE artefacts such as
  NaN are outside the model).  There is no aliasing in the model, so the
  strict-equality operator of the host language is modelled by
  `jsStrictEq`, which is structural on primitives and false on composite
  values (two syntactically distinct composite literals are never the
  same reference; a shared reference is not representable here).
* Schema nodes are modelled by `JSchema`; only the keywords the engine
  reads are represented.  A regular expression is modelled by `JSRegex`:
  its source text plus a Lean predicate faithfully translating the
  (purely ASCII) character-class patterns used by the repository.
* The recursive engine is defined with an explicit fuel parameter so that
  it is structurally recursive and computes inside the kernel.  Every
  recursive call strictly decreases the schema-nesting depth, so the
  constant fuel used by the public wrappers (one thousand) is sufficient
  for every schema whose nesting depth is below it; the schemas of this
  repository have depth at most five.  No theorem below depends on the
  bound except through those concrete schemas: the universally quantified
  theorems either reach no recursive call at all or compare two runs of
  the engine at the same fuel.
* Exceptions are modelled with `Except`: the only exception the modelled
  code can raise is `ValidationError` (or the fixed-message range errors
  of the branded-number constructors, modelled by `Except String`).
* Property access never walks a prototype chain in the model, and the
  string rendering of composite values and non-integer numbers inside
  error message text is approximate (no claim depends on it).
-/

/-- Runtime model of an untyped host-language value. -/
inductive JSValue where
  | vNull
  | vBool (b : Bool)
  | vNum (q : Rat)
  | vStr (s : String)
  | vArr (items : List JSValue)
  | vObj (fields : List (String × JSValue))

/-- Model of the typeof operator: null, arrays and objects all report
the string for objects. -/
def typeOf : JSValue → String
  | .vNull => "object"
  | .vBool _ => "boolean"
  | .vNum _ => "number"
  | .vStr _ => "string"
  | .vArr _ => "object"
  | .vObj _ => "object"

def JSValue.isNull : JSValue → Bool
  | .vNull => true
  | _ => false

def JSValue.isArray : JSValue → Bool
  | .vArr _ => true
  | _ => false

/-- Index-keyed entries of an array value, mirroring how an array is seen
when it is treated as a plain record. -/
def indexedEntries : Nat → List JSValue → List (String × JSValue)
  | _, [] => []
  | i, v :: rest => (toString i, v) :: indexedEntries (i + 1) rest

/-- Own enumerable entries of a value, in insertion order. -/
def entriesOf : JSValue → List (String × JSValue)
  | .vObj fs => fs
  | .vArr l => indexedEntries 0 l
  | _ => []

/-- Property read, returning none when the property is absent (the
undefined value).  Prototype-chain properties are not modelled. -/
def getField (v : JSValue) (k : String) : Option JSValue :=
  (entriesOf v).lookup k

/-- Model of the membership test used for required fields.  Arrays expose
their length property; inherited prototype members are not modelled. -/
def hasFieldIn (v : JSValue) (k : String) : Bool :=
  (getField v k).isSome || (v.isArray && k == "length")

/-- Strict equality of the host language.  Structural on primitives;
composite values compare by reference, which the alias-free model renders
as never equal (a shared reference is not expressible here). -/
def jsStrictEq : JSValue → JSValue → Bool
  | .vNull, .vNull => true
  | .vBool a, .vBool b => a == b
  | .vNum a, .vNum b => a == b
  | .vStr a, .vStr b => a == b
  | _, _ => false

/-- Rendering of a number into message text: exact for integers, which is
the only case the repository prints; other rationals are shown in
numerator-slash-denominator form rather than decimal notation. -/
def ratToJsString (q : Rat) : String :=
  if q.den = 1 then toString q.num else toString q

/-- String conversion used when a value is spliced into message text.
Primitives render faithfully; composite values are approximated (an empty
rendering for arrays), which no claim depends on. -/
def jsToString : JSValue → String
  | .vNull => "null"
  | .vBool b => cond b "true" "false"
  | .vNum q => ratToJsString q
  | .vStr s => s
  | .vArr _ => ""
  | .vObj _ => "[object Object]"

/-- Number of distinct elements under strict equality, mirroring the size
of a set built from the list. -/
def setInsert (seen : List JSValue) (v : JSValue) : List JSValue :=
  if seen.any (fun w => jsStrictEq w v) then seen else seen ++ [v]

def setSize (l : List JSValue) : Nat :=
  (l.foldl setInsert []).length

/-- The declared type of a schema node: a single type name or a list of
type names. -/
inductive SchemaType where
  | single (t : String)
  | multi (ts : List String)
  deriving DecidableEq, Repr

/-- A regular expression: its source text together with the matching
predicate it denotes. -/
structure JSRegex where
  src : String
  test : String → Bool

/-- The schema keywords read by the engine (plus the two declared-only
keywords format and additionalProperties, which the engine ignores).
Parameterised by the node type to allow the recursive knot below. -/
structure JSchemaCore (σ : Type) where
  ty : Option SchemaType := none
  required : Option (List String) := none
  properties : Option (List (String × σ)) := none
  minLength : Option Nat := none
  maxLength : Option Nat := none
  pattern : Option JSRegex := none
  minimum : Option Rat := none
  maximum : Option Rat := none
  enum : Option (List JSValue) := none
  const : Option JSValue := none
  minItems : Option Nat := none
  maxItems : Option Nat := none
  uniqueItems : Option Bool := none
  items : Option σ := none
  format : Option String := none
  additionalProperties : Option Bool := none

/-- A schema tree. -/
inductive JSchema where
  | mk (core : JSchemaCore JSchema)

def JSchema.core : JSchema → JSchemaCore JSchema
  | .mk c => c

def JSchema.ty (s : JSchema) : Option SchemaType := s.core.ty
def JSchema.required (s : JSchema) : Option (List String) := s.core.required
def JSchema.properties (s : JSchema) : Option (List (String × JSchema)) := s.core.properties
def JSchema.minLength (s : JSchema) : Option Nat := s.core.minLength
def JSchema.maxLength (s : JSchema) : Option Nat := s.core.maxLength
def JSchema.pattern (s : JSchema) : Option JSRegex := s.core.pattern
def JSchema.minimum (s : JSchema) : Option Rat := s.core.minimum
def JSchema.maximum (s : JSchema) : Option Rat := s.core.maximum
def JSchema.enum (s : JSchema) : Option (List JSValue) := s.core.enum
def JSchema.const (s : JSchema) : Option JSValue := s.core.const
def JSchema.minItems (s : JSchema) : Option Nat := s.core.minItems
def JSchema.maxItems (s : JSchema) : Option Nat := s.core.maxItems
def JSchema.uniqueItems (s : JSchema) : Option Bool := s.core.uniqueItems
def JSchema.items (s : JSchema) : Option JSchema := s.core.items
def JSchema.additionalProperties (s : JSchema) : Option Bool := s.core.additionalProperties

/-- Lookup of a property sub-schema by field name. -/
def propLookup (s : JSchema) (k : String) : Option JSchema :=
  match s.properties with
  | some props => props.lookup k
  | none => none

/-- Validation result: a validity flag and an ordered error list. -/
structure ValidationResult where
  valid : Bool
  errors : List String
  deriving DecidableEq, Repr

/-- The structured error raised by the throwing validators. -/
structure ValidationError where
  message : String
  errors : List String
  deriving DecidableEq, Repr

/-- True when the declared type is a list that includes null. -/
def typeListIncludesNull : Option SchemaType → Bool
  | some (.multi ts) => ts.contains "null"
  | _ => false

/-- The expected primitive type: the first non-null entry of a type list,
or the single declared type. -/
def expectedTypeOf : Option SchemaType → Option String
  | some (.multi ts) => ts.find? (fun t => t != "null")
  | some (.single t) => some t
  | none => none

/-- The top-level type mismatch test: comparing the typeof string with the
declared type.  A list-valued declared type never equals a typeof string,
so the comparison is a mismatch whenever a type list is declared. -/
def schemaTypeMismatch : Option SchemaType → JSValue → Bool
  | some (.single t), data => typeOf data != t
  | some (.multi _), _ => true
  | none, _ => false

/-- Rendering of the declared type inside the top-level mismatch text. -/
def schemaTypeStr : Option SchemaType → String
  | some (.single t) => t
  | some (.multi ts) => String.intercalate "," ts
  | none => "undefined"

/-- Strict-equality comparison of the declared type with a type name:
true exactly when a single type equal to the name is declared (an absent
or list-valued declared type never strictly equals a type name). -/
def tyIs : Option SchemaType → String → Bool
  | some (.single x), name => x == name
  | _, _ => false

/-- Minimum-length violations of a string value. -/
def strMinErrs (schema : JSchema) (s : String) (fieldName : String) : List String :=
  match schema.minLength with
  | some n => if s.length < n then [fieldName ++ ": Minimum length is " ++ toString n] else []
  | none => []

/-- Maximum-length violations of a string value. -/
def strMaxErrs (schema : JSchema) (s : String) (fieldName : String) : List String :=
  match schema.maxLength with
  | some n => if s.length > n then [fieldName ++ ": Maximum length is " ++ toString n] else []
  | none => []

/-- Regex-pattern violations of a string value. -/
def strPatErrs (schema : JSchema) (s : String) (fieldName : String) : List String :=
  match schema.pattern with
  | some p => if !(p.test s) then [fieldName ++ ": Does not match pattern " ++ p.src] else []
  | none => []

/-- Minimum violations of a numeric value. -/
def numMinErrs (schema : JSchema) (q : Rat) (fieldName : String) : List String :=
  match schema.minimum with
  | some m => if q < m then [fieldName ++ ": Minimum value is " ++ ratToJsString m] else []
  | none => []

/-- Maximum violations of a numeric value. -/
def numMaxErrs (schema : JSchema) (q : Rat) (fieldName : String) : List String :=
  match schema.maximum with
  | some m => if q > m then [fieldName ++ ": Maximum value is " ++ ratToJsString m] else []
  | none => []

/-- Enumeration violations: the value must be strictly equal to one of the
declared literals. -/
def enumErrsOf (schema : JSchema) (value : JSValue) (fieldName : String) : List String :=
  match schema.enum with
  | some vs =>
    if !(vs.any (fun v => jsStrictEq v value)) then
      [fieldName ++ ": Must be one of " ++ String.intercalate ", " (vs.map jsToString)]
    else []
  | none => []

/-- Const violations: the value must be strictly equal to the declared
literal. -/
def constErrsOf (schema : JSchema) (value : JSValue) (fieldName : String) : List String :=
  match schema.const with
  | some c => if !(jsStrictEq value c) then [fieldName ++ ": Must be " ++ jsToString c] else []
  | none => []

/-- Minimum-items violations of an array value. -/
def arrMinErrs (schema : JSchema) (n : Nat) (fieldName : String) : List String :=
  match schema.minItems with
  | some m => if n < m then [fieldName ++ ": Minimum items is " ++ toString m] else []
  | none => []

/-- Maximum-items violations of an array value. -/
def arrMaxErrs (schema : JSchema) (n : Nat) (fieldName : String) : List String :=
  match schema.maxItems with
  | some m => if n > m then [fieldName ++ ": Maximum items is " ++ toString m] else []
  | none => []

/-- Uniqueness violations: the distinct count must equal the length. -/
def uniqueErrs (schema : JSchema) (items : List JSValue) (fieldName : String) : List String :=
  match schema.uniqueItems with
  | some true => if setSize items != items.length then [fieldName ++ ": Items must be unique"] else []
  | _ => []

/-- Errors of the required-field pass: one message per required name not
present in the data record, in declaration order. -/
def reqErrsOf (data : JSValue) : List String → List String
  | [] => []
  | f :: rest =>
    (if hasFieldIn data f then [] else ["Missing required field: " ++ f]) ++ reqErrsOf data rest

/-- Errors of the property pass: every entry of the data record that is
described in the property map is validated against its sub-schema; other
entries are skipped. -/
def propErrsOf (recur : JSValue → JSchema → String → ValidationResult)
    (props : List (String × JSchema)) : List (String × JSValue) → List String
  | [] => []
  | (k, v) :: rest =>
    (match props.lookup k with
     | some fieldSchema => (recur v fieldSchema k).errors
     | none => []) ++ propErrsOf recur props rest

/-- Errors of the item pass of an array: every element is validated
against the item schema under an index-suffixed field label. -/
def itemErrsOf (recur : JSValue → JSchema → String → ValidationResult)
    (itemSchema : JSchema) (fieldName : String) : Nat → List JSValue → List String
  | _, [] => []
  | i, v :: rest =>
    (recur v itemSchema (fieldName ++ "[" ++ toString i ++ "]")).errors
      ++ itemErrsOf recur itemSchema fieldName (i + 1) rest

/-- Body of the object-schema pass of the engine, parameterised by the
field-level validator used on property values.  Mirrors the private
validateSchema method: required-field errors, then property errors; a
non-object datum only errs when a declared type mismatches its typeof. -/
def validateSchemaBody (recur : JSValue → JSchema → String → ValidationResult)
    (data : JSValue) (schema : JSchema) : ValidationResult :=
  if tyIs schema.ty "object" && typeOf data == "object" && !data.isNull then
    let reqErrs :=
      match schema.required with
      | some req => if 0 < req.length then reqErrsOf data req else []
      | none => []
    let propErrs :=
      match schema.properties with
      | some props => propErrsOf recur props (entriesOf data)
      | none => []
    let errors := reqErrs ++ propErrs
    { valid := errors.isEmpty, errors := errors }
  else if (schema.ty).isSome && schemaTypeMismatch schema.ty data then
    { valid := false
      errors := ["Expected type " ++ schemaTypeStr schema.ty ++ ", got " ++ typeOf data] }
  else
    { valid := true, errors := [] }

/-- Field-level validator with explicit fuel; mirrors the private
validateField method.  Every recursive call is at strictly smaller schema
size, so fuel at least the schema size never reaches the exhausted
branch. -/
def validateFieldF : Nat → JSValue → JSchema → String → ValidationResult
  | 0, _, _, _ => { valid := true, errors := [] }
  | fuel + 1, value, schema, fieldName =>
    if typeListIncludesNull schema.ty && value.isNull then
      { valid := true, errors := [] }
    else
      let typeErrs : List String :=
        match expectedTypeOf schema.ty with
        | some et =>
          if et == "array" && !value.isArray then
            [fieldName ++ ": Expected array, got " ++ typeOf value]
          else if et != "array" && typeOf value != et then
            [fieldName ++ ": Expected " ++ et ++ ", got " ++ typeOf value]
          else []
        | none => []
      if !typeErrs.isEmpty then
        { valid := false, errors := typeErrs }
      else
        let strErrs :=
          if tyIs schema.ty "string" then
            match value with
            | .vStr s =>
              strMinErrs schema s fieldName ++ strMaxErrs schema s fieldName
                ++ strPatErrs schema s fieldName
            | _ => []
          else []
        let numErrs :=
          if tyIs schema.ty "number" then
            match value with
            | .vNum q => numMinErrs schema q fieldName ++ numMaxErrs schema q fieldName
            | _ => []
          else []
        let enumErrs := enumErrsOf schema value fieldName
        let constErrs := constErrsOf schema value fieldName
        let arrErrs :=
          if tyIs schema.ty "array" then
            match value with
            | .vArr items =>
              arrMinErrs schema items.length fieldName ++ arrMaxErrs schema items.length fieldName
                ++ uniqueErrs schema items fieldName
                ++ (match schema.items with
                    | some itemSchema => itemErrsOf (validateFieldF fuel) itemSchema fieldName 0 items
                    | none => [])
            | _ => []
          else []
        let objErrs :=
          if tyIs schema.ty "object" && typeOf value == "object" && !value.isNull then
            (validateSchemaBody (validateFieldF fuel) value schema).errors.map
              (fun e => fieldName ++ "." ++ e)
          else []
        let errors := strErrs ++ numErrs ++ enumErrs ++ constErrs ++ arrErrs ++ objErrs
        { valid := errors.isEmpty, errors := errors }

/-- Fuel used by the public engine wrappers: an upper bound on the
schema-nesting depth the engine can descend.  Sufficient for every schema
of nesting depth below one thousand; the repository schemas have depth at
most five. -/
def engineFuel : Nat := 1000

namespace SimpleValidator

/-- The object-schema pass of the engine. -/
def validateSchema (data : JSValue) (schema : JSchema) : ValidationResult :=
  validateSchemaBody (validateFieldF engineFuel) data schema

/-- The field-level pass of the engine. -/
def validateField (value : JSValue) (schema : JSchema) (fieldName : String) : ValidationResult :=
  validateFieldF (engineFuel + 1) value schema fieldName

/-- The public entry point: a non-object schema is delegated directly to
field-level validation under the label value. -/
def validate (data : JSValue) (schema : JSchema) : ValidationResult :=
  if !(tyIs schema.ty "object") then validateField data schema "value"
  else validateSchema data schema

end SimpleValidator

/-- Allowed priority values. -/
def PRIORITIES : List String := ["low", "medium", "high", "critical"]

/-- Allowed feature status values. -/
def FEATURE_STATUSES : List String :=
  ["backlog", "planning", "in-progress", "testing", "completed"]

/-- Allowed bug status values. -/
def BUG_STATUSES : List String :=
  ["open", "in-progress", "resolved", "closed", "wont-fix"]

/-- Allowed task status values. -/
def TASK_STATUSES : List String := ["todo", "in-progress", "blocked", "completed"]

/-- Allowed severity values. -/
def SEVERITIES : List String := ["low", "medium", "high", "critical"]

/-- The identifier format: one or more ASCII letters, digits, underscores
or hyphens, anchored at both ends. -/
def ID_PATTERN : JSRegex where
  src := "^[a-zA-Z0-9_-]+$"
  test := fun s => !s.isEmpty && s.toList.all (fun c => c.isAlphanum || c == '_' || c == '-')

/-- One or more ASCII digits. -/
def allDigits (s : String) : Bool :=
  !s.isEmpty && s.toList.all Char.isDigit

/-- Dotted numeric core of a semantic version. -/
def semverCore (s : String) : Bool :=
  match s.splitOn "." with
  | [a, b, c] => allDigits a && allDigits b && allDigits c
  | _ => false

/-- The semantic-version format: three dot-separated digit groups with an
optional hyphenated alphanumeric suffix, anchored at both ends. -/
def SEMVER_PATTERN : JSRegex where
  src := "^\\d+\\.\\d+\\.\\d+(-[a-zA-Z0-9]+)?$"
  test := fun s =>
    match s.splitOn "-" with
    | [core] => semverCore core
    | [core, suffix] => semverCore core && !suffix.isEmpty && suffix.toList.all Char.isAlphanum
    | _ => false

/-- Builds the schema of an enumerated string, mirroring the source
helper. -/
def createEnumSchema (values : List String) : JSchema :=
  .mk { ty := some (.single "string"), enum := some (values.map JSValue.vStr) }

/-- Required fields shared by every entity kind. -/
def BASE_ITEM_REQUIRED : List String :=
  ["id", "title", "description", "status", "priority", "createdAt", "updatedAt"]

/-- Property map shared by every entity kind. -/
def BASE_ITEM_PROPERTIES : List (String × JSchema) :=
  [("id", .mk { ty := some (.single "string"), minLength := some 1, pattern := some ID_PATTERN }),
   ("title", .mk { ty := some (.single "string"), minLength := some 1, maxLength := some 200 }),
   ("description", .mk { ty := some (.single "string"), maxLength := some 2000 }),
   ("priority", createEnumSchema PRIORITIES),
   ("createdAt", .mk { ty := some (.single "string"), format := some "date-time" }),
   ("updatedAt", .mk { ty := some (.single "string"), format := some "date-time" })]

/-- The base item schema. -/
def BASE_ITEM_SCHEMA : JSchema :=
  .mk { ty := some (.single "object")
        required := some BASE_ITEM_REQUIRED
        properties := some BASE_ITEM_PROPERTIES
        additionalProperties := some false }

/-- The epic property of a feature: nullable string with a minimum
length. -/
def EPIC_PROP : JSchema :=
  .mk { ty := some (.multi ["string", "null"]), minLength := some 1 }

/-- The acceptance-criteria property of a feature: at least one non-empty
string. -/
def ACCEPTANCE_CRITERIA_PROP : JSchema :=
  .mk { ty := some (.single "array")
        items := some (.mk { ty := some (.single "string"), minLength := some 1 })
        minItems := some 1 }

/-- The feature schema: base required plus type and acceptanceCriteria;
base properties extended with the feature-specific ones. -/
def FEATURE_SCHEMA : JSchema :=
  .mk { ty := some (.single "object")
        required := some (BASE_ITEM_REQUIRED ++ ["type", "acceptanceCriteria"])
        properties := some (BASE_ITEM_PROPERTIES ++
          [("type", .mk { const := some (.vStr "feature") }),
           ("status", createEnumSchema FEATURE_STATUSES),
           ("epic", EPIC_PROP),
           ("acceptanceCriteria", ACCEPTANCE_CRITERIA_PROP)])
        additionalProperties := some false }

/-- The resolution property of a bug: nullable string with a minimum
length. -/
def RESOLUTION_PROP : JSchema :=
  .mk { ty := some (.multi ["string", "null"]), minLength := some 1 }

/-- The steps-to-reproduce property of a bug: at least one non-empty
string. -/
def STEPS_TO_REPRODUCE_PROP : JSchema :=
  .mk { ty := some (.single "array")
        items := some (.mk { ty := some (.single "string"), minLength := some 1 })
        minItems := some 1 }

/-- The bug schema. -/
def BUG_SCHEMA : JSchema :=
  .mk { ty := some (.single "object")
        required := some (BASE_ITEM_REQUIRED ++
          ["type", "severity", "reproducible", "stepsToReproduce", "environment"])
        properties := some (BASE_ITEM_PROPERTIES ++
          [("type", .mk { const := some (.vStr "bug") }),
           ("status", createEnumSchema BUG_STATUSES),
           ("severity", createEnumSchema SEVERITIES),
           ("reproducible", .mk { ty := some (.single "boolean") }),
           ("stepsToReproduce", STEPS_TO_REPRODUCE_PROP),
           ("environment", .mk { ty := some (.single "string"), minLength := some 1 }),
           ("resolution", RESOLUTION_PROP)])
        additionalProperties := some false }

/-- The subtasks property of a task: identifier strings, unique. -/
def SUBTASKS_PROP : JSchema :=
  .mk { ty := some (.single "array")
        items := some (.mk { ty := some (.single "string"), pattern := some ID_PATTERN })
        uniqueItems := some true }

/-- The task schema. -/
def TASK_SCHEMA : JSchema :=
  .mk { ty := some (.single "object")
        required := some (BASE_ITEM_REQUIRED ++ ["type", "subtasks"])
        properties := some (BASE_ITEM_PROPERTIES ++
          [("type", .mk { const := some (.vStr "task") }),
           ("status", createEnumSchema TASK_STATUSES),
           ("subtasks", SUBTASKS_PROP)])
        additionalProperties := some false }

/-- The metadata sub-schema of the project-data schema. -/
def PROJECT_METADATA_SCHEMA : JSchema :=
  .mk { ty := some (.single "object")
        required := some ["projectName", "version", "lastUpdated"]
        properties := some
          [("projectName", .mk { ty := some (.single "string"), minLength := some 1, maxLength := some 100 }),
           ("version", .mk { ty := some (.single "string"), pattern := some SEMVER_PATTERN }),
           ("lastUpdated", .mk { ty := some (.single "string"), format := some "date-time" })]
        additionalProperties := some false }

/-- The project-data aggregate schema. -/
def PROJECT_DATA_SCHEMA : JSchema :=
  .mk { ty := some (.single "object")
        required := some ["features", "bugs", "tasks", "metadata"]
        properties := some
          [("features", .mk { ty := some (.single "array"), items := some FEATURE_SCHEMA }),
           ("bugs", .mk { ty := some (.single "array"), items := some BUG_SCHEMA }),
           ("tasks", .mk { ty := some (.single "array"), items := some TASK_SCHEMA }),
           ("metadata", PROJECT_METADATA_SCHEMA)]
        additionalProperties := some false }

/-- Story points are created through a validating constructor: values
below one or above twenty-one are rejected with a fixed message. -/
def createStoryPoints (value : Rat) : Except String Rat :=
  if value < 1 ∨ value > 21 then .error "Story points must be between 1 and 21"
  else .ok value

/-- Hours are created through a validating constructor: negative values
are rejected with a fixed message. -/
def createHours (value : Rat) : Except String Rat :=
  if value < 0 then .error "Hours must be non-negative"
  else .ok value

/-- Throwing validator of a feature value. -/
def validateFeature (data : JSValue) : Except ValidationError Bool :=
  let result := SimpleValidator.validate data FEATURE_SCHEMA
  if !result.valid then .error { message := "Feature validation failed", errors := result.errors }
  else .ok true

/-- Throwing validator of a bug value. -/
def validateBug (data : JSValue) : Except ValidationError Bool :=
  let result := SimpleValidator.validate data BUG_SCHEMA
  if !result.valid then .error { message := "Bug validation failed", errors := result.errors }
  else .ok true

/-- Throwing validator of a task value. -/
def validateTask (data : JSValue) : Except ValidationError Bool :=
  let result := SimpleValidator.validate data TASK_SCHEMA
  if !result.valid then .error { message := "Task validation failed", errors := result.errors }
  else .ok true

/-- Throwing validator of a project-data value. -/
def validateProjectData (data : JSValue) : Except ValidationError Bool :=
  let result := SimpleValidator.validate data PROJECT_DATA_SCHEMA
  if !result.valid then .error { message := "Project data validation failed", errors := result.errors }
  else .ok true

/-- Strict-equality comparison of a possibly absent type tag with a tag
name, mirroring the tag guards of the source. -/
def isTag (t : Option JSValue) (name : String) : Bool :=
  match t with
  | some (.vStr x) => x == name
  | _ => false

/-- A single quote character, used inside message text. -/
def sglQuote : String := "\x27"

/-- Message of the unrecognized-tag error: names the offending tag as it
prints. -/
def invalidTypeMsg (t : Option JSValue) : String :=
  "Expected " ++ sglQuote ++ "feature" ++ sglQuote ++ ", " ++ sglQuote ++ "bug" ++ sglQuote ++ ", or " ++ sglQuote ++ "task"
    ++ sglQuote ++ ", got " ++ sglQuote ++ (match t with | some v => jsToString v | none => "undefined") ++ sglQuote

/-- Item validation with type discrimination: requires a non-null object,
then dispatches on the type tag; an absent or unrecognized tag raises an
error naming the tag. -/
def validateProjectItem (data : JSValue) : Except ValidationError Bool :=
  if typeOf data != "object" || data.isNull then
    .error { message := "Invalid project item", errors := ["Expected object"] }
  else if isTag (getField data "type") "feature" then validateFeature data
  else if isTag (getField data "type") "bug" then validateBug data
  else if isTag (getField data "type") "task" then validateTask data
  else
    .error { message := "Invalid project item type"
             errors := [invalidTypeMsg (getField data "type")] }

/-- Result of the non-throwing validators; an absent data field is
modelled by none. -/
structure TryResult where
  valid : Bool
  errors : List String
  data : Option JSValue := none

/-- Non-throwing wrapper of the feature validator. -/
def tryValidateFeature (data : JSValue) : TryResult :=
  match validateFeature data with
  | .ok _ => { valid := true, errors := [], data := some data }
  | .error e => { valid := false, errors := e.errors }

/-- Non-throwing wrapper of the bug validator. -/
def tryValidateBug (data : JSValue) : TryResult :=
  match validateBug data with
  | .ok _ => { valid := true, errors := [], data := some data }
  | .error e => { valid := false, errors := e.errors }

/-- Non-throwing wrapper of the task validator. -/
def tryValidateTask (data : JSValue) : TryResult :=
  match validateTask data with
  | .ok _ => { valid := true, errors := [], data := some data }
  | .error e => { valid := false, errors := e.errors }

/-- Transition table of features: allowed next statuses per status. -/
def FEATURE_STATUS_TRANSITIONS : List (String × List String) :=
  [("backlog", ["planning"]),
   ("planning", ["in-progress", "backlog"]),
   ("in-progress", ["testing", "planning"]),
   ("testing", ["completed", "in-progress"]),
   ("completed", [])]

/-- Transition table of bugs. -/
def BUG_STATUS_TRANSITIONS : List (String × List String) :=
  [("open", ["in-progress", "wont-fix"]),
   ("in-progress", ["resolved", "open"]),
   ("resolved", ["closed", "open"]),
   ("closed", ["open"]),
   ("wont-fix", ["open"])]

/-- Transition table of tasks. -/
def TASK_STATUS_TRANSITIONS : List (String × List String) :=
  [("todo", ["in-progress"]),
   ("in-progress", ["blocked", "completed", "todo"]),
   ("blocked", ["in-progress", "todo"]),
   ("completed", [])]

/-- Membership of the target status in the table entry of the source
status.  The result is none when the source status has no table entry, in
which case the original code dereferences an undefined entry and raises a
type error at runtime. -/
def canTransitionFeatureStatus (fromStatus toStatus : String) : Option Bool :=
  (FEATURE_STATUS_TRANSITIONS.lookup fromStatus).map (fun ts => ts.contains toStatus)

/-- Bug variant of the transition check. -/
def canTransitionBugStatus (fromStatus toStatus : String) : Option Bool :=
  (BUG_STATUS_TRANSITIONS.lookup fromStatus).map (fun ts => ts.contains toStatus)

/-- Task variant of the transition check. -/
def canTransitionTaskStatus (fromStatus toStatus : String) : Option Bool :=
  (TASK_STATUS_TRANSITIONS.lookup fromStatus).map (fun ts => ts.contains toStatus)

/-- Runtime type guard for features: the type tag equals the feature
tag. -/
def isFeature (item : JSValue) : Bool := isTag (getField item "type") "feature"

/-- Runtime type guard for bugs. -/
def isBug (item : JSValue) : Bool := isTag (getField item "type") "bug"

/-- Runtime type guard for tasks. -/
def isTask (item : JSValue) : Bool := isTag (getField item "type") "task"

/-- The string under which the status of an item indexes a transition
table (an absent status prints as undefined). -/
def statusKey (item : JSValue) : String :=
  match getField item "status" with
  | some v => jsToString v
  | none => "undefined"

/-- Generic status-transition check: dispatches on the type-tag guards in
order and returns false for an unrecognized kind.  Reading a property of
the null value raises a type error in the host language, modelled by
none. -/
def canTransitionStatus (item : JSValue) (newStatus : String) : Option Bool :=
  if item.isNull then none
  else if isFeature item then canTransitionFeatureStatus (statusKey item) newStatus
  else if isBug item then canTransitionBugStatus (statusKey item) newStatus
  else if isTask item then canTransitionTaskStatus (statusKey item) newStatus
  else some false

/-! Helper lemmas about the engine primitives. -/

@[simp] theorem tyIs_single (a b : String) : tyIs (some (.single a)) b = (a == b) := rfl

@[simp] theorem tyIs_multi (ts : List String) (b : String) : tyIs (some (.multi ts)) b = false := rfl

@[simp] theorem tyIs_none (b : String) : tyIs none b = false := rfl

theorem isNull_eq_false {v : JSValue} (h : v ≠ .vNull) : v.isNull = false := by
  cases v <;> simp_all [JSValue.isNull]

theorem isTag_of_eq {t : Option JSValue} {a : String} (h : t = some (.vStr a)) :
    isTag t a = true := by
  subst h; simp [isTag]

theorem isTag_ne {t : Option JSValue} {a b : String} (h : isTag t a = true) (hne : a ≠ b) :
    isTag t b = false := by
  cases t with
  | none => simp [isTag] at h
  | some v =>
    cases v with
    | vStr s =>
      simp only [isTag, beq_iff_eq] at h ⊢
      subst h; simpa using hne
    | vNull => simp [isTag] at h
    | vBool b => simp [isTag] at h
    | vNum q => simp [isTag] at h
    | vArr l => simp [isTag] at h
    | vObj fs => simp [isTag] at h

theorem isTag_eq_false_of_not_str {t : Option JSValue} {name : String}
    (h : ∀ s, t = some (.vStr s) → s ≠ name) : isTag t name = false := by
  cases t with
  | none => rfl
  | some v =>
    cases v with
    | vStr s =>
      have hs := h s rfl
      simp [isTag, hs]
    | vNull => rfl
    | vBool b => rfl
    | vNum q => rfl
    | vArr l => rfl
    | vObj fs => rfl

theorem hasFieldIn_vObj (fs : List (String × JSValue)) (k : String) :
    hasFieldIn (.vObj fs) k = (fs.lookup k).isSome := by
  simp [hasFieldIn, getField, entriesOf, JSValue.isArray]

theorem lookup_append_isSome {fs gs : List (String × JSValue)} {k : String}
    (h : (fs.lookup k).isSome = true) : ((fs ++ gs).lookup k).isSome = true := by
  induction fs with
  | nil => simp [List.lookup] at h
  | cons a rest ih =>
    obtain ⟨a1, a2⟩ := a
    by_cases hk : (k == a1) = true
    · simp only [List.cons_append, List.lookup, hk, Option.isSome_some]
    · simp only [Bool.not_eq_true] at hk
      simp only [List.cons_append, List.lookup, hk] at h ⊢
      exact ih h

theorem lookup_filter_ne {fs : List (String × JSValue)} {f name : String} (hne : f ≠ name) :
    ((fs.filter (fun kv => kv.1 != name)).lookup f) = fs.lookup f := by
  induction fs with
  | nil => rfl
  | cons a rest ih =>
    obtain ⟨a1, a2⟩ := a
    by_cases ha : a1 = name
    · subst ha
      have hf : (f == a1) = false := by simpa using hne
      simp [List.lookup, List.filter, hf, ih]
    · have : (a1 != name) = true := by simpa using ha
      simp [List.lookup, List.filter, this, ih]

theorem lookup_filter_self {fs : List (String × JSValue)} {name : String} :
    ((fs.filter (fun kv => kv.1 != name)).lookup name) = none := by
  induction fs with
  | nil => rfl
  | cons a rest ih =>
    obtain ⟨a1, a2⟩ := a
    by_cases ha : a1 = name
    · subst ha; simp [List.filter, ih]
    · have h1 : (a1 != name) = true := by simpa using ha
      have h2 : (name == a1) = false := by simp [Ne.symm ha]
      simp [List.filter, List.lookup, h1, h2, ih]

/-! Helper lemmas about the error-accumulating passes. -/

theorem reqErrsOf_all_present {d : JSValue} {req : List String}
    (h : ∀ f ∈ req, hasFieldIn d f = true) : reqErrsOf d req = [] := by
  induction req with
  | nil => rfl
  | cons a rest ih =>
    have ha := h a (by simp)
    simp only [reqErrsOf, ha, if_true]
    exact ih (fun f hf => h f (by simp [hf]))

theorem reqErrsOf_eq_nil {d : JSValue} {req : List String} (h : reqErrsOf d req = []) :
    ∀ f ∈ req, hasFieldIn d f = true := by
  induction req with
  | nil => simp
  | cons a rest ih =>
    intro f hf
    by_cases ha : hasFieldIn d a = true
    · simp only [reqErrsOf, ha, if_true, List.nil_append] at h
      rcases List.mem_cons.mp hf with rfl | hf2
      · exact ha
      · exact ih h f hf2
    · simp [reqErrsOf, ha] at h

theorem mem_reqErrsOf {d : JSValue} {req : List String} {name : String}
    (hmem : name ∈ req) (hmiss : hasFieldIn d name = false) :
    ("Missing required field: " ++ name) ∈ reqErrsOf d req := by
  induction req with
  | nil => simp at hmem
  | cons a rest ih =>
    rcases List.mem_cons.mp hmem with rfl | hmem2
    · simp [reqErrsOf, hmiss]
    · by_cases ha : hasFieldIn d a = true
      · simp only [reqErrsOf, ha, if_true, List.nil_append]
        exact ih hmem2
      · simp only [Bool.not_eq_true] at ha
        simp only [reqErrsOf, ha, if_false]
        exact List.mem_append_right _ (ih hmem2)

theorem reqErrsOf_single_missing {d : JSValue} {req : List String} {name : String}
    (hnd : req.Nodup) (hmem : name ∈ req)
    (hpres : ∀ f ∈ req, f ≠ name → hasFieldIn d f = true)
    (hmiss : hasFieldIn d name = false) :
    reqErrsOf d req = ["Missing required field: " ++ name] := by
  induction req with
  | nil => simp at hmem
  | cons a rest ih =>
    have hnd2 := List.nodup_cons.mp hnd
    rcases List.mem_cons.mp hmem with rfl | hmem2
    · simp only [reqErrsOf, hmiss, if_false]
      have : reqErrsOf d rest = [] := by
        refine reqErrsOf_all_present (fun f hf => ?_)
        refine hpres f (by simp [hf]) ?_
        intro hfe
        exact hnd2.1 (hfe ▸ hf)
      simp [this]
    · have hane : a ≠ name := by
        intro he
        exact hnd2.1 (he ▸ hmem2)
      have ha := hpres a (by simp) hane
      simp only [reqErrsOf, ha, if_true, List.nil_append]
      exact ih hnd2.2 hmem2 (fun f hf hfn => hpres f (by simp [hf]) hfn)

theorem propErrsOf_append (R : JSValue → JSchema → String → ValidationResult)
    (props : List (String × JSchema)) (l1 l2 : List (String × JSValue)) :
    propErrsOf R props (l1 ++ l2) = propErrsOf R props l1 ++ propErrsOf R props l2 := by
  induction l1 with
  | nil => rfl
  | cons a rest ih =>
    obtain ⟨k, v⟩ := a
    simp [propErrsOf, ih]

theorem propErrsOf_single_not_found (R : JSValue → JSchema → String → ValidationResult)
    (props : List (String × JSchema)) (k : String) (v : JSValue)
    (h : props.lookup k = none) : propErrsOf R props [(k, v)] = [] := by
  simp [propErrsOf, h]

theorem propErrsOf_filter_nil {R : JSValue → JSchema → String → ValidationResult}
    {props : List (String × JSchema)} {fs : List (String × JSValue)}
    (p : String × JSValue → Bool)
    (h : propErrsOf R props fs = []) : propErrsOf R props (fs.filter p) = [] := by
  induction fs with
  | nil => rfl
  | cons a rest ih =>
    obtain ⟨k, v⟩ := a
    simp only [propErrsOf, List.append_eq_nil] at h
    by_cases hp : p (k, v) = true
    · simp only [List.filter, hp, propErrsOf, h.1, List.nil_append]
      exact ih h.2
    · simp only [Bool.not_eq_true] at hp
      simp only [List.filter, hp]
      exact ih h.2

/-! Concrete fixtures mirroring the test data of the repository. -/

/-- A fully valid feature record. -/
def validFeatureFields : List (String × JSValue) :=
  [("id", .vStr "f1"), ("title", .vStr "Test Feature"), ("description", .vStr "Test description"),
   ("type", .vStr "feature"), ("status", .vStr "backlog"), ("priority", .vStr "medium"),
   ("tags", .vArr []), ("createdAt", .vStr "2023-01-01T00:00:00Z"),
   ("updatedAt", .vStr "2023-01-01T00:00:00Z"),
   ("acceptanceCriteria", .vArr [.vStr "Must work"])]

/-- A fully valid task record. -/
def validTaskFields : List (String × JSValue) :=
  [("id", .vStr "t1"), ("title", .vStr "Test Task"), ("description", .vStr "Test description"),
   ("type", .vStr "task"), ("status", .vStr "todo"), ("priority", .vStr "low"),
   ("subtasks", .vArr []), ("tags", .vArr []), ("createdAt", .vStr "2023-01-01T00:00:00Z"),
   ("updatedAt", .vStr "2023-01-01T00:00:00Z")]

/-! Claim C1. -/

/-- C1, counterexample: the claim states that construction validates that
the argument is an integer in the range one to twenty-one; the constructor
accepts the non-integer five halves, so the integrality half of that
characterisation is false of the code. -/
theorem createStoryPoints_integer_claim_false :
    ¬ (∀ n : Rat, createStoryPoints n = .ok n ↔
        ((∃ k : ℤ, n = (k : Rat)) ∧ 1 ≤ n ∧ n ≤ 21)) := by
  intro h
  have hok : createStoryPoints ((5 : Rat) / 2) = .ok ((5 : Rat) / 2) := by
    unfold createStoryPoints
    norm_num
  obtain ⟨⟨k, hk⟩, -, -⟩ := (h ((5 : Rat) / 2)).mp hok
  have hden : ((5 : Rat) / 2).den = 1 := by
    rw [hk]; exact Rat.den_intCast k
  norm_num at hden

/-- C1, amended: createStoryPoints validates only the range one to
twenty-one (integrality is not checked): it succeeds, returning the number
itself, exactly on arguments inside the closed range, and fails with the
fixed message exactly on arguments outside it. -/
theorem createStoryPoints_range_spec (n : Rat) :
    (createStoryPoints n = .ok n ↔ 1 ≤ n ∧ n ≤ 21) ∧
    (createStoryPoints n = .error "Story points must be between 1 and 21" ↔
      (n < 1 ∨ 21 < n)) := by
  unfold createStoryPoints
  split_ifs with h
  · refine ⟨⟨fun hh => by simp at hh, fun hh => ?_⟩, ⟨fun _ => ?_, fun _ => rfl⟩⟩
    · rcases h with h | h
      · exact absurd hh.1 (not_le.mpr h)
      · exact absurd hh.2 (not_le.mpr h)
    · exact h
  · push_neg at h
    refine ⟨⟨fun _ => ⟨h.1, h.2⟩, fun _ => rfl⟩, ⟨fun hh => by simp at hh, fun hh => ?_⟩⟩
    rcases hh with hh | hh
    · exact absurd hh (not_lt.mpr h.1)
    · exact absurd hh (not_lt.mpr h.2)

/-! Claim C5. -/

/-- C5: each kind-specific transition check returns, for every pair of
statuses of that kind, exactly the membership of the pair in the concrete
transition relations listed by the specification. -/
theorem transition_tables_exact :
    (∀ f ∈ FEATURE_STATUSES, ∀ t ∈ FEATURE_STATUSES,
      canTransitionFeatureStatus f t =
        some ([("backlog", "planning"), ("planning", "in-progress"), ("planning", "backlog"),
               ("in-progress", "testing"), ("in-progress", "planning"),
               ("testing", "completed"), ("testing", "in-progress")].contains (f, t))) ∧
    (∀ f ∈ BUG_STATUSES, ∀ t ∈ BUG_STATUSES,
      canTransitionBugStatus f t =
        some ([("open", "in-progress"), ("open", "wont-fix"), ("in-progress", "resolved"),
               ("in-progress", "open"), ("resolved", "closed"), ("resolved", "open"),
               ("closed", "open"), ("wont-fix", "open")].contains (f, t))) ∧
    (∀ f ∈ TASK_STATUSES, ∀ t ∈ TASK_STATUSES,
      canTransitionTaskStatus f t =
        some ([("todo", "in-progress"), ("in-progress", "blocked"), ("in-progress", "completed"),
               ("in-progress", "todo"), ("blocked", "in-progress"),
               ("blocked", "todo")].contains (f, t))) := by
  refine ⟨?_, ?_, ?_⟩ <;> decide

/-- C5, witness: the backlog-to-planning feature transition is allowed. -/
theorem transition_tables_exact_witness :
    canTransitionFeatureStatus "backlog" "planning" = some true := by
  have h := transition_tables_exact.1 "backlog" (by decide) "planning" (by decide)
  rw [h]
  rfl

/-! Claim C10. -/

/-- C10: the per-kind transition relation is irreflexive: no table entry
contains its own key, and the self-transition check returns false at
every status of every kind. -/
theorem transition_tables_irreflexive :
    (∀ s ∈ FEATURE_STATUSES, canTransitionFeatureStatus s s = some false) ∧
    (∀ s ∈ BUG_STATUSES, canTransitionBugStatus s s = some false) ∧
    (∀ s ∈ TASK_STATUSES, canTransitionTaskStatus s s = some false) ∧
    (∀ p ∈ FEATURE_STATUS_TRANSITIONS, p.1 ∉ p.2) ∧
    (∀ p ∈ BUG_STATUS_TRANSITIONS, p.1 ∉ p.2) ∧
    (∀ p ∈ TASK_STATUS_TRANSITIONS, p.1 ∉ p.2) := by
  refine ⟨?_, ?_, ?_, ?_, ?_, ?_⟩ <;> decide

/-- C10, witness: a task stays put only through distinct statuses. -/
theorem transition_tables_irreflexive_witness :
    canTransitionTaskStatus "in-progress" "in-progress" = some false :=
  transition_tables_irreflexive.2.2.1 "in-progress" (by decide)

/-! Claim C7. -/

/-- C7: each non-throwing wrapper converts a success of the throwing
validator into a valid result carrying the unchanged input, and converts a
raised validation error into an invalid result carrying exactly the list
of the error, with the data field absent. -/
theorem tryValidate_wrappers (d : JSValue) :
    ((validateFeature d = .ok true →
        tryValidateFeature d = { valid := true, errors := [], data := some d }) ∧
     (∀ e, validateFeature d = .error e →
        tryValidateFeature d = { valid := false, errors := e.errors, data := none })) ∧
    ((validateBug d = .ok true →
        tryValidateBug d = { valid := true, errors := [], data := some d }) ∧
     (∀ e, validateBug d = .error e →
        tryValidateBug d = { valid := false, errors := e.errors, data := none })) ∧
    ((validateTask d = .ok true →
        tryValidateTask d = { valid := true, errors := [], data := some d }) ∧
     (∀ e, validateTask d = .error e →
        tryValidateTask d = { valid := false, errors := e.errors, data := none })) := by
  refine ⟨⟨?_, ?_⟩, ⟨?_, ?_⟩, ⟨?_, ?_⟩⟩
  · intro h; unfold tryValidateFeature; rw [h]
  · intro e h; unfold tryValidateFeature; rw [h]
  · intro h; unfold tryValidateBug; rw [h]
  · intro e h; unfold tryValidateBug; rw [h]
  · intro h; unfold tryValidateTask; rw [h]
  · intro e h; unfold tryValidateTask; rw [h]

/-- C7, witness: on the fully valid task the wrapper returns a valid
result carrying the task; on the task with subtasks removed it returns an
invalid result with the missing-field error and no data. -/
theorem tryValidate_wrappers_witness :
    tryValidateTask (.vObj validTaskFields) =
      { valid := true, errors := [], data := some (.vObj validTaskFields) } ∧
    tryValidateTask (.vObj (validTaskFields.filter (fun kv => kv.1 != "subtasks"))) =
      { valid := false, errors := ["Missing required field: subtasks"], data := none } := by
  constructor
  · exact (tryValidate_wrappers (.vObj validTaskFields)).2.2.1 rfl
  · exact (tryValidate_wrappers (.vObj (validTaskFields.filter (fun kv => kv.1 != "subtasks")))).2.2.2
      { message := "Task validation failed", errors := ["Missing required field: subtasks"] } rfl

/-! Claim C8. -/

/-- C8: the generic transition check dispatches on the type-tag guards of
a non-null item, delegating to the matching kind-specific check on the
status key of the item, and returns false, raising nothing, when the tag
matches no kind. -/
theorem canTransitionStatus_dispatch (item : JSValue) (ns : String) (hnn : item ≠ .vNull) :
    (isFeature item = true →
      canTransitionStatus item ns = canTransitionFeatureStatus (statusKey item) ns) ∧
    (isBug item = true →
      canTransitionStatus item ns = canTransitionBugStatus (statusKey item) ns) ∧
    (isTask item = true →
      canTransitionStatus item ns = canTransitionTaskStatus (statusKey item) ns) ∧
    (isFeature item = false → isBug item = false → isTask item = false →
      canTransitionStatus item ns = some false) := by
  have hnull := isNull_eq_false hnn
  refine ⟨?_, ?_, ?_, ?_⟩
  · intro hf
    simp [canTransitionStatus, hnull, hf]
  · intro hb
    have hf : isFeature item = false := isTag_ne (a := "bug") hb (by decide)
    simp [canTransitionStatus, hnull, hf, hb]
  · intro ht
    have hf : isFeature item = false := isTag_ne (a := "task") ht (by decide)
    have hb : isBug item = false := isTag_ne (a := "task") ht (by decide)
    simp [canTransitionStatus, hnull, hf, hb, ht]
  · intro hf hb ht
    simp [canTransitionStatus, hnull, hf, hb, ht]

/-- C8, witness: an item of an unrecognized kind yields false without
raising. -/
theorem canTransitionStatus_dispatch_witness :
    canTransitionStatus (.vObj [("type", .vStr "epic-item"), ("status", .vStr "open")]) "open" =
      some false := by
  have h := (canTransitionStatus_dispatch
    (.vObj [("type", .vStr "epic-item"), ("status", .vStr "open")]) "open"
    (fun hh => JSValue.noConfusion hh)).2.2.2
  exact h rfl rfl rfl

/-! Claim C6. -/

/-- C6: item validation rejects every non-object input with the fixed
expected-object error; on a non-null object it dispatches on the type tag
to the matching typed validator, and for an absent or unrecognized tag it
raises the invalid-type error whose single message names the offending
tag. -/
theorem validateProjectItem_dispatch (data : JSValue) :
    ((typeOf data ≠ "object" ∨ data = .vNull) →
      validateProjectItem data =
        .error { message := "Invalid project item", errors := ["Expected object"] }) ∧
    (typeOf data = "object" → data ≠ .vNull →
      ((getField data "type" = some (.vStr "feature") →
          validateProjectItem data = validateFeature data) ∧
       (getField data "type" = some (.vStr "bug") →
          validateProjectItem data = validateBug data) ∧
       (getField data "type" = some (.vStr "task") →
          validateProjectItem data = validateTask data) ∧
       ((∀ s, getField data "type" = some (.vStr s) → s ≠ "feature" ∧ s ≠ "bug" ∧ s ≠ "task") →
          validateProjectItem data =
            .error { message := "Invalid project item type"
                     errors := [invalidTypeMsg (getField data "type")] }))) := by
  constructor
  · intro h
    have hc : (typeOf data != "object" || data.isNull) = true := by
      rcases h with h | h
      · simp [bne_iff_ne, h]
      · subst h; simp [JSValue.isNull]
    simp [validateProjectItem, hc]
  · intro hty hnn
    have hc : (typeOf data != "object" || data.isNull) = false := by
      simp [bne_iff_ne, hty, isNull_eq_false hnn]
    refine ⟨?_, ?_, ?_, ?_⟩
    · intro htag
      simp [validateProjectItem, hc, isTag_of_eq htag]
    · intro htag
      have h1 : isTag (getField data "type") "feature" = false :=
        isTag_ne (a := "bug") (isTag_of_eq htag) (by decide)
      simp [validateProjectItem, hc, h1, isTag_of_eq htag]
    · intro htag
      have h1 : isTag (getField data "type") "feature" = false :=
        isTag_ne (a := "task") (isTag_of_eq htag) (by decide)
      have h2 : isTag (getField data "type") "bug" = false :=
        isTag_ne (a := "task") (isTag_of_eq htag) (by decide)
      simp [validateProjectItem, hc, h1, h2, isTag_of_eq htag]
    · intro hdef
      have h1 : isTag (getField data "type") "feature" = false :=
        isTag_eq_false_of_not_str (fun s hs => (hdef s hs).1)
      have h2 : isTag (getField data "type") "bug" = false :=
        isTag_eq_false_of_not_str (fun s hs => (hdef s hs).2.1)
      have h3 : isTag (getField data "type") "task" = false :=
        isTag_eq_false_of_not_str (fun s hs => (hdef s hs).2.2)
      simp [validateProjectItem, hc, h1, h2, h3]

/-- C6, witness: a bare string raises the expected-object error, and an
object with an unknown tag raises the invalid-type error naming the tag;
an object tagged as a feature is delegated to the feature validator. -/
theorem validateProjectItem_dispatch_witness :
    validateProjectItem (.vStr "not an object") =
      .error { message := "Invalid project item", errors := ["Expected object"] } ∧
    validateProjectItem (.vObj [("type", .vStr "unknown")]) =
      .error { message := "Invalid project item type"
               errors := ["Expected \x27feature\x27, \x27bug\x27, or \x27task\x27, got \x27unknown\x27"] } ∧
    validateProjectItem (.vObj validFeatureFields) = validateFeature (.vObj validFeatureFields) := by
  refine ⟨?_, ?_, ?_⟩
  · exact (validateProjectItem_dispatch (.vStr "not an object")).1 (Or.inl (by decide))
  · have h := ((validateProjectItem_dispatch (.vObj [("type", .vStr "unknown")])).2 rfl
      (fun hh => JSValue.noConfusion hh)).2.2.2
    have h2 := h (fun s hs => by
      have h3 : (some (JSValue.vStr "unknown") : Option JSValue) = some (.vStr s) := hs
      have h4 : "unknown" = s := by
        have h5 := Option.some.inj h3
        injection h5
      subst h4
      exact ⟨by decide, by decide, by decide⟩)
    rw [h2]
    rfl
  · exact ((validateProjectItem_dispatch (.vObj validFeatureFields)).2 rfl
      (fun hh => JSValue.noConfusion hh)).1 rfl

/-! Claim C2. -/

/-- C2: validating the null value against any object schema yields a
valid result with no errors, because the typeof of null is the object
string, so neither the record pass nor the primitive-mismatch branch
fires; consequently all four typed validators accept null. -/
theorem validate_null_object_schema :
    (∀ schema : JSchema, schema.ty = some (.single "object") →
      SimpleValidator.validate .vNull schema = { valid := true, errors := [] }) ∧
    validateFeature .vNull = .ok true ∧ validateBug .vNull = .ok true ∧
    validateTask .vNull = .ok true ∧ validateProjectData .vNull = .ok true := by
  refine ⟨?_, rfl, rfl, rfl, rfl⟩
  intro schema hty
  unfold SimpleValidator.validate SimpleValidator.validateSchema validateSchemaBody
  rw [hty]
  simp [schemaTypeMismatch, typeOf, JSValue.isNull]

/-- C2, witness: the feature schema accepts null. -/
theorem validate_null_object_schema_witness :
    SimpleValidator.validate .vNull FEATURE_SCHEMA = { valid := true, errors := [] } :=
  validate_null_object_schema.1 FEATURE_SCHEMA rfl

/-! Claim C3. -/

/-- C3, counterexample: the string-specific checks run only under a
declared type strictly equal to the string type name, so a schema whose
type set is the string-or-null list, such as the epic property of the
feature schema, never has its minimum-length constraint checked: the
empty string passes the epic schema without any error, refuting the claim
that every declared minimum-length violation on a string value produces
its message. -/
theorem string_checks_skip_union_types :
    EPIC_PROP.minLength = some 1 ∧
    propLookup FEATURE_SCHEMA "epic" = some EPIC_PROP ∧
    ¬ (∀ (schema : JSchema) (s fieldName : String) (n : Nat),
        schema.minLength = some n → s.length < n →
        (fieldName ++ ": Minimum length is " ++ toString n) ∈
          (SimpleValidator.validateField (.vStr s) schema fieldName).errors) := by
  refine ⟨rfl, rfl, fun h => ?_⟩
  have h2 := h EPIC_PROP "" "epic" 1 rfl (by decide)
  have h3 : SimpleValidator.validateField (.vStr "") EPIC_PROP "epic" =
      { valid := true, errors := [] } := rfl
  rw [h3] at h2
  simp at h2

set_option maxRecDepth 4000 in
/-- C3, amended: when the schema declares the single string type, a
string value that passes the type check accumulates one message per
violated constraint: the minimum-length, maximum-length and pattern
messages in that order, followed by the enumeration and const checks;
nothing is short-circuited among them. -/
theorem validateField_string_accumulates (s : String) (schema : JSchema) (fieldName : String)
    (hty : schema.ty = some (.single "string")) :
    (SimpleValidator.validateField (.vStr s) schema fieldName).errors =
      strMinErrs schema s fieldName ++ strMaxErrs schema s fieldName
        ++ strPatErrs schema s fieldName ++ enumErrsOf schema (.vStr s) fieldName
        ++ constErrsOf schema (.vStr s) fieldName := by
  unfold SimpleValidator.validateField
  rw [validateFieldF, hty]
  simp [typeListIncludesNull, expectedTypeOf, typeOf, JSValue.isNull, JSValue.isArray,
    List.append_assoc]

/-- C3, witness: the empty string against the identifier property schema
accumulates both the minimum-length and the pattern messages. -/
theorem validateField_string_accumulates_witness :
    (SimpleValidator.validateField (.vStr "")
        (.mk { ty := some (.single "string"), minLength := some 1, pattern := some ID_PATTERN })
        "id").errors =
      ["id: Minimum length is 1", "id: Does not match pattern ^[a-zA-Z0-9_-]+$"] := by
  have h := validateField_string_accumulates ""
    (.mk { ty := some (.single "string"), minLength := some 1, pattern := some ID_PATTERN })
    "id" rfl
  rw [h]
  rfl

/-! Normal form of object-schema validation, used by claims about the
record passes. -/

/-- The full error list the engine produces for a record against an
object schema: the required pass followed by the property pass. -/
def objErrsFull (schema : JSchema) (fs : List (String × JSValue)) : List String :=
  (match schema.required with
   | some req => if 0 < req.length then reqErrsOf (.vObj fs) req else []
   | none => []) ++
  (match schema.properties with
   | some props => propErrsOf (validateFieldF engineFuel) props fs
   | none => [])

theorem validate_obj_eq (schema : JSchema) (hty : schema.ty = some (.single "object"))
    (fs : List (String × JSValue)) :
    SimpleValidator.validate (.vObj fs) schema =
      { valid := (objErrsFull schema fs).isEmpty, errors := objErrsFull schema fs } := by
  unfold SimpleValidator.validate SimpleValidator.validateSchema validateSchemaBody objErrsFull
  rw [hty]
  simp [typeOf, JSValue.isNull, entriesOf]

theorem reqErrsOf_append_nil {fs : List (String × JSValue)} {req : List String}
    (kv : String × JSValue)
    (h : reqErrsOf (.vObj fs) req = []) : reqErrsOf (.vObj (fs ++ [kv])) req = [] := by
  refine reqErrsOf_all_present (fun f hf => ?_)
  have hp := reqErrsOf_eq_nil h f hf
  rw [hasFieldIn_vObj] at hp ⊢
  exact lookup_append_isSome hp

/-! Claim C4. -/

/-- C4: the engine silently ignores record fields absent from the
property map: appending any field whose name the property map does not
declare to a record that validates cleanly leaves the result valid with
an unchanged, empty error list, even though a schema may declare (as the
entity schemas do) that additional properties are forbidden. -/
theorem validate_ignores_undeclared_fields (schema : JSchema) (fs : List (String × JSValue))
    (k : String) (v : JSValue)
    (hty : schema.ty = some (.single "object"))
    (hk : propLookup schema k = none)
    (hfresh : (fs.lookup k).isSome = false)
    (hvalid : SimpleValidator.validate (.vObj fs) schema = { valid := true, errors := [] }) :
    SimpleValidator.validate (.vObj (fs ++ [(k, v)])) schema = { valid := true, errors := [] } := by
  rw [validate_obj_eq schema hty] at hvalid ⊢
  have herr : objErrsFull schema fs = [] := by
    simpa using congrArg ValidationResult.errors hvalid
  have hout : objErrsFull schema (fs ++ [(k, v)]) = [] := by
    unfold objErrsFull at herr ⊢
    rcases List.append_eq_nil.mp herr with ⟨h1, h2⟩
    refine List.append_eq_nil.mpr ⟨?_, ?_⟩
    · cases hr : schema.required with
      | none => rfl
      | some req =>
        simp only [hr] at h1 ⊢
        by_cases hlen : 0 < req.length
        · rw [if_pos hlen] at h1 ⊢
          exact reqErrsOf_append_nil (k, v) h1
        · rw [if_neg hlen]
    · cases hp : schema.properties with
      | none => rfl
      | some props =>
        simp only [hp] at h2 ⊢
        rw [propErrsOf_append, h2, List.nil_append]
        refine propErrsOf_single_not_found _ _ _ _ ?_
        have hk2 := hk
        unfold propLookup at hk2
        simpa only [hp] using hk2
  rw [hout]
  rfl

/-- C4, witness: the valid feature with an extra undeclared field still
validates cleanly against the feature schema, which declares that
additional properties are forbidden. -/
theorem validate_ignores_undeclared_fields_witness :
    SimpleValidator.validate (.vObj (validFeatureFields ++ [("extra", .vStr "x")])) FEATURE_SCHEMA =
      { valid := true, errors := [] } ∧
    FEATURE_SCHEMA.additionalProperties = some false := by
  refine ⟨?_, rfl⟩
  exact validate_ignores_undeclared_fields FEATURE_SCHEMA validFeatureFields "extra" (.vStr "x")
    rfl rfl rfl rfl

/-! Claim C9. -/

/-- C9: for every object schema, every name of its required list that a
record lacks yields the missing-field message; in particular, filtering
any one required field out of a record that validates cleanly makes
validation fail with exactly the message naming that field (when the
required list has no duplicates, as the entity schemas do). -/
theorem required_field_errors (schema : JSchema) (req : List String)
    (fs : List (String × JSValue)) (name : String)
    (hty : schema.ty = some (.single "object"))
    (hreq : schema.required = some req)
    (hmem : name ∈ req) :
    (hasFieldIn (.vObj fs) name = false →
      ("Missing required field: " ++ name) ∈
        (SimpleValidator.validate (.vObj fs) schema).errors) ∧
    (req.Nodup →
      SimpleValidator.validate (.vObj fs) schema = { valid := true, errors := [] } →
      SimpleValidator.validate (.vObj (fs.filter (fun kv => kv.1 != name))) schema =
        { valid := false, errors := ["Missing required field: " ++ name] }) := by
  have hlen : 0 < req.length := List.length_pos.mpr (List.ne_nil_of_mem hmem)
  constructor
  · intro hmiss
    rw [validate_obj_eq schema hty]
    show ("Missing required field: " ++ name) ∈ objErrsFull schema fs
    unfold objErrsFull
    simp only [hreq, if_pos hlen]
    exact List.mem_append_left _ (mem_reqErrsOf hmem hmiss)
  · intro hnd hvalid
    rw [validate_obj_eq schema hty] at hvalid ⊢
    have herr : objErrsFull schema fs = [] := by
      simpa using congrArg ValidationResult.errors hvalid
    unfold objErrsFull at herr ⊢
    simp only [hreq, if_pos hlen] at herr ⊢
    rcases List.append_eq_nil.mp herr with ⟨h1, h2⟩
    have hpres := reqErrsOf_eq_nil h1
    have hreqerr : reqErrsOf (.vObj (fs.filter (fun kv => kv.1 != name))) req =
        ["Missing required field: " ++ name] := by
      refine reqErrsOf_single_missing hnd hmem (fun f hf hfn => ?_) ?_
      · have hp2 := hpres f hf
        rw [hasFieldIn_vObj] at hp2
        rw [hasFieldIn_vObj, lookup_filter_ne hfn]
        exact hp2
      · rw [hasFieldIn_vObj, lookup_filter_self]
        rfl
    have hproperr : (match schema.properties with
        | some props =>
          propErrsOf (validateFieldF engineFuel) props (fs.filter (fun kv => kv.1 != name))
        | none => []) = [] := by
      cases hp : schema.properties with
      | none => rfl
      | some props =>
        simp only [hp] at h2 ⊢
        exact propErrsOf_filter_nil _ h2
    rw [hreqerr, hproperr]
    rfl

/-- C9, witness: the valid feature validates cleanly, and with its title
filtered out validation fails with exactly the message naming title; the
same record also exhibits the membership half of the claim. -/
theorem required_field_errors_witness :
    ("Missing required field: title") ∈
      (SimpleValidator.validate (.vObj (validFeatureFields.filter (fun kv => kv.1 != "title")))
        FEATURE_SCHEMA).errors ∧
    SimpleValidator.validate (.vObj (validFeatureFields.filter (fun kv => kv.1 != "title")))
        FEATURE_SCHEMA =
      { valid := false, errors := ["Missing required field: title"] } := by
  constructor
  · exact (required_field_errors FEATURE_SCHEMA (BASE_ITEM_REQUIRED ++ ["type", "acceptanceCriteria"])
      (validFeatureFields.filter (fun kv => kv.1 != "title")) "title" rfl rfl
      (by decide)).1 rfl
  · exact (required_field_errors FEATURE_SCHEMA (BASE_ITEM_REQUIRED ++ ["type", "acceptanceCriteria"])
      validFeatureFields "title" rfl rfl (by decide)).2 (by decide) rfl
